import Mathlib

/-!
Verification of the two data-preparation scripts in this repository:

* `src/data/WHPplus/process_ids_10000_10009.py` — the "Record Converter":
  turns each MCQ record into a `question`/`fact`/`name` record and splits
  the dataset between ids `"10000"`..`"10009"` and all other ids.
* `src/data/WHPplus/split_whp.py` — the "Shard Splitter": transforms each
  record the same way, drops records whose answer cannot be resolved,
  drops identifiers with no surviving record, and distributes identifiers
  round-robin over N shard files.

Python values loaded from JSON are modelled by the inductive type `Json`;
Python dicts are association lists with string keys (a real dict has
unique keys, so theorems that depend on it take a `Nodup` hypothesis on
the keys).  Fallible code is modelled with `Except String`: an exception
(`ValueError`, `AttributeError`, `TypeError`) is an `Except.error`, and
file contents appear only in the `Except.ok` result, which models that a
run that raises writes no output.
-/

/-- A JSON value as loaded by `json.load`: `null`, booleans, numbers,
strings, arrays and objects.  Objects are association lists with string
keys, in insertion order.  (Numbers are modelled as integers; no claim
depends on fractional values.) -/
inductive Json where
  | null : Json
  | bool : Bool → Json
  | num : Int → Json
  | str : String → Json
  | arr : List Json → Json
  | obj : List (String × Json) → Json

/-- A Python dict parsed from a JSON object: string keys to values. -/
abbrev Obj := List (String × Json)

/-- `d.get(k, default)` on a Python dict: value of the first entry with
key `k`, or the default when the key is absent. -/
def dgetD (kvs : Obj) (k : String) (d : Json) : Json :=
  match kvs.find? (fun p => p.1 == k) with
  | some p => p.2
  | none => d

/-- `d.get(k)` on a Python dict: value of the first entry with key `k`,
or `None` (JSON null) when the key is absent. -/
def dget (kvs : Obj) (k : String) : Json :=
  dgetD kvs k Json.null

/-- Python truthiness of a JSON value: `None`, `False`, `0`, `""`, `[]`
and `{}` are falsy, everything else is truthy. -/
def Json.falsy : Json → Bool
  | .null => true
  | .bool b => !b
  | .num n => n == 0
  | .str s => s.isEmpty
  | .arr xs => xs.isEmpty
  | .obj kvs => kvs.isEmpty

/-- Whether a JSON value is `null` (`is None` in Python). -/
def Json.isNull : Json → Bool
  | .null => true
  | _ => false

/-- `isinstance(v, dict)`. -/
def Json.isObj : Json → Bool
  | .obj _ => true
  | _ => false

/-- `isinstance(v, list)`. -/
def Json.isArr : Json → Bool
  | .arr _ => true
  | _ => false

/-- Whether a JSON value is hashable in Python: lists and dicts are
unhashable, `None`, booleans, numbers and strings are hashable.  Python
raises `TypeError` when an unhashable value is tested for dict
membership. -/
def Json.hashable : Json → Bool
  | .arr _ => false
  | .obj _ => false
  | _ => true

namespace Converter

/-- `convert_record` from `process_ids_10000_10009.py`: read `question`,
`name`, `answer` and `choices` from the record (missing keys give
`None`), replace a falsy `choices` by `{}`, resolve
`fact = choices.get(answer)` when the answer is a string and the choices
are a dict, and return the three-field record. -/
def convert_record (rec : Obj) : Obj :=
  let question := dget rec "question"
  let name := dget rec "name"
  let answer_letter := dget rec "answer"
  let choices := if (dget rec "choices").falsy then Json.obj [] else dget rec "choices"
  let fact :=
    match answer_letter, choices with
    | .str s, .obj ckvs => dget ckvs s
    | _, _ => Json.null
  [("question", question), ("fact", fact), ("name", name)]

/-- `{str(i) for i in range(10000, 10010)}`. -/
def selected_ids : List String :=
  (List.range 10).map (fun i => toString (10000 + i))

/-- `[convert_record(item) for item in v]`: each item must be a dict,
otherwise `item.get` raises `AttributeError`. -/
def convertList : List Json → Except String (List Obj)
  | [] => Except.ok []
  | item :: rest =>
    match item with
    | .obj rec =>
      match convertList rest with
      | .error e => Except.error e
      | .ok tl => Except.ok (convert_record rec :: tl)
    | _ => Except.error "AttributeError: get"

/-- The `fact` field as the specification describes it: the value of
`choices[answer]` when `answer` is a string key of the `choices` object
(and `choices` is a dict), otherwise null.  Stated from the spec text,
to be compared with `convert_record`. -/
def fact_spec (rec : Obj) : Json :=
  match dget rec "choices" with
  | .obj ckvs =>
    match dget rec "answer" with
    | .str s =>
      match ckvs.find? (fun p => p.1 == s) with
      | some p => p.2
      | none => Json.null
    | _ => Json.null
  | _ => Json.null

/-- The `for k, v in data.items()` loop of `process`: skip entries whose
value is not a list, convert every item of a list value, and route the
converted list to `selected` when the key is in `selected_ids`, else to
`others`. -/
def processEntries : Obj → Except String (List (String × List Obj) × List (String × List Obj))
  | [] => Except.ok ([], [])
  | (k, v) :: rest =>
    match v with
    | .arr items =>
      match convertList items with
      | .error e => Except.error e
      | .ok converted =>
        match processEntries rest with
        | .error e => Except.error e
        | .ok (sel, oth) =>
          if k ∈ selected_ids then Except.ok ((k, converted) :: sel, oth)
          else Except.ok (sel, (k, converted) :: oth)
    | _ => processEntries rest

/-- `process` from `process_ids_10000_10009.py`, after `json.load`:
reject a top-level value that is not a dict with `ValueError`, otherwise
produce the contents of the `selected` and `others` output files. -/
def process (data : Json) :
    Except String (List (String × List Obj) × List (String × List Obj)) :=
  match data with
  | .obj kvs => processEntries kvs
  | _ => Except.error "Input must be a JSON object mapping id -> list[records]."

end Converter

namespace Splitter

/-- The body of the `for it in items` loop of `transform_items`, for one
item.  `it.get` requires a dict (`AttributeError` otherwise).  With
`ans = it.get("answer")` and `choices = it.get("choices", {})`, the item
is skipped when `choices` is not a dict; otherwise Python evaluates
`ans not in choices`, which raises `TypeError` when `ans` is unhashable
(a list or a dict), and is false for every non-string hashable `ans`
since the keys of a JSON object are strings.  When the key is present
but its value is null (`fact_text is None`) the item is skipped; else
the `name`/`question`/`fact` record is emitted. -/
def transformItem (it : Json) : Except String (Option Obj) :=
  match it with
  | .obj rec =>
    let ans := dget rec "answer"
    let choices := dgetD rec "choices" (Json.obj [])
    match choices with
    | .obj ckvs =>
      match ans with
      | .arr _ => Except.error "TypeError: unhashable type: list"
      | .obj _ => Except.error "TypeError: unhashable type: dict"
      | .str s =>
        match ckvs.find? (fun p => p.1 == s) with
        | some p =>
          if p.2.isNull then Except.ok none
          else Except.ok (some [("name", dget rec "name"),
                                ("question", dget rec "question"),
                                ("fact", p.2)])
        | none => Except.ok none
      | _ => Except.ok none
    | _ => Except.ok none
  | _ => Except.error "AttributeError: get"

/-- `transform_items` from `split_whp.py`: process the items in order,
dropping skipped ones and keeping emitted ones; the first exception
raised aborts the whole call. -/
def transform_items : List Json → Except String (List Obj)
  | [] => Except.ok []
  | it :: rest =>
    match transformItem it with
    | .error e => Except.error e
    | .ok r =>
      match transform_items rest with
      | .error e => Except.error e
      | .ok rs =>
        match r with
        | some o => Except.ok (o :: rs)
        | none => Except.ok rs

/-- What the specification says `transform_items` emits for one record:
when the `choices` field is an object, the `answer` is a key present in
it and the corresponding value is non-null, the `name`/`question`/`fact`
record with `fact = choices[answer]`; otherwise nothing.  Stated from
the spec text, to be compared with `transformItem`. -/
def emit_spec (rec : Obj) : Option Obj :=
  match dget rec "choices" with
  | .obj ckvs =>
    match dget rec "answer" with
    | .str s =>
      match ckvs.find? (fun p => p.1 == s) with
      | some p =>
        if p.2.isNull then none
        else some [("name", dget rec "name"),
                   ("question", dget rec "question"),
                   ("fact", p.2)]
      | none => none
    | _ => none
  | _ => none

/-- Append one id to bucket `i` of a list of buckets
(`buckets[i].append(pid)`). -/
def appendAt (bs : List (List String)) (i : Nat) (x : String) : List (List String) :=
  bs.set i (bs.getD i [] ++ [x])

/-- The `for idx, pid in enumerate(all_ids)` loop of `shard_ids`,
starting from index `idx` with the buckets built so far. -/
def shardIdsGo (n : Nat) (buckets : List (List String)) (idx : Nat) :
    List String → List (List String)
  | [] => buckets
  | pid :: rest => shardIdsGo n (appendAt buckets (idx % n) pid) (idx + 1) rest

/-- `shard_ids` from `split_whp.py`: start from `n` empty buckets and
append each id to bucket `idx % n`. -/
def shard_ids (all_ids : List String) (n : Nat) : List (List String) :=
  shardIdsGo n (List.replicate n []) 0 all_ids

/-- The per-identifier transformation of `main`: a list value goes
through `transform_items`, a single dict is wrapped in a one-element
list, anything else becomes the empty list. -/
def transformValue (v : Json) : Except String (List Obj) :=
  match v with
  | .arr items => transform_items items
  | .obj rec => transform_items [Json.obj rec]
  | _ => Except.ok []

/-- The `for pid in all_ids` loop of `main` that builds `transformed`:
look up each id in `data`, transform its value, and record the id only
when the transformed list is non-empty. -/
def buildTransformed (kvs : Obj) : List String → Except String (List (String × List Obj))
  | [] => Except.ok []
  | pid :: rest =>
    match transformValue (dget kvs pid) with
    | .error e => Except.error e
    | .ok new_items =>
      match buildTransformed kvs rest with
      | .error e => Except.error e
      | .ok tl =>
        if new_items.isEmpty then Except.ok tl
        else Except.ok ((pid, new_items) :: tl)

/-- `list(data.keys())`, sorted lexicographically when `--sort_ids` is
given. -/
def allIdsOf (kvs : Obj) (sortIds : Bool) : List String :=
  if sortIds then List.insertionSort (fun a b => a ≤ b) (kvs.map Prod.fst)
  else kvs.map Prod.fst

/-- `[pid for pid in all_ids if pid in transformed]`. -/
def filteredIdsOf (transformed : List (String × List Obj)) (all_ids : List String) :
    List String :=
  all_ids.filter (fun pid => (transformed.find? (fun q => q.1 == pid)).isSome)

/-- `transformed[pid]` for an id known to be present (`lookupD _ _ = []`
is never reached from `main`, whose buckets only hold filtered ids). -/
def lookupD (transformed : List (String × List Obj)) (pid : String) : List Obj :=
  match transformed.find? (fun q => q.1 == pid) with
  | some q => q.2
  | none => []

/-- `f"split_{i:0{width}d}"`: decimal digits of `i`, left-padded with
zeros to `width` (never truncated). -/
def zpad (i width : Nat) : String :=
  let s := toString i
  String.mk (List.replicate (width - s.length) '0') ++ s

/-- `main` from `split_whp.py`, after `json.load` and argument parsing:
reject a non-dict top level with `ValueError`; otherwise build
`transformed` over the (optionally sorted) id list, keep the non-empty
ids, shard them round-robin, and return for each shard its file name
`split_<k>.json` (k = 1..n, zero-padded to `max 2 (len (str n))`) with
the shard's id-to-records object.  Output appears only on `ok`: the
`ValueError` is raised before `ensure_outdir` runs, so on that error
path no directory is created and no file is written. -/
def main (data : Json) (num_shards : Nat) (sort_ids : Bool) :
    Except String (List (String × List (String × List Obj))) :=
  match data with
  | .obj kvs =>
    let all_ids := allIdsOf kvs sort_ids
    match buildTransformed kvs all_ids with
    | .error e => Except.error e
    | .ok transformed =>
      let filtered_ids := filteredIdsOf transformed all_ids
      let buckets := shard_ids filtered_ids num_shards
      let width := max 2 (toString num_shards).length
      Except.ok (buckets.enum.map (fun p =>
        ("split_" ++ zpad (p.1 + 1) width ++ ".json",
         p.2.map (fun pid => (pid, lookupD transformed pid)))))
  | _ => Except.error "Input JSON must be a dict mapping original_id -> list of MCQ items."

end Splitter

namespace Converter

/-- A successful `convertList` produces one output record per input
item. -/
theorem convertList_ok_length {v : List Json} {l : List Obj}
    (h : convertList v = Except.ok l) : l.length = v.length := by
  induction v generalizing l with
  | nil => simp [convertList] at h; simp [← h]
  | cons item rest ih =>
    cases item <;> simp [convertList] at h
    rename_i rec
    cases hr : convertList rest with
    | error e => rw [hr] at h; simp at h
    | ok tl => rw [hr] at h; simp at h; simp [← h, ih hr]

/-- Key characterisation of the `process` loop: the keys of `selected`
are exactly the list-valued input keys in the id range, in order, and
the keys of `others` are exactly the remaining list-valued input keys. -/
theorem processEntries_keys {kvs : Obj} {sel oth : List (String × List Obj)}
    (h : processEntries kvs = Except.ok (sel, oth)) :
    sel.map Prod.fst =
      (kvs.filter (fun p => p.2.isArr && decide (p.1 ∈ selected_ids))).map Prod.fst ∧
    oth.map Prod.fst =
      (kvs.filter (fun p => p.2.isArr && !decide (p.1 ∈ selected_ids))).map Prod.fst := by
  induction kvs generalizing sel oth with
  | nil => simp [processEntries] at h; simp [h.1, h.2]
  | cons p rest ih =>
    obtain ⟨k, v⟩ := p
    cases v <;> simp only [processEntries] at h <;>
      first
      | · -- non-list value: skipped by the loop and by the filters
          have := ih h
          simpa [Json.isArr] using this
      | · -- list value
          rename_i items
          cases hc : convertList items with
          | error e => rw [hc] at h; simp at h
          | ok converted =>
            rw [hc] at h
            cases hr : processEntries rest with
            | error e => rw [hr] at h; simp at h
            | ok q =>
              obtain ⟨sel', oth'⟩ := q
              rw [hr] at h
              by_cases hk : k ∈ selected_ids
              · simp [hk] at h
                obtain ⟨hs, ho⟩ := h
                simp [← hs, ← ho, Json.isArr, hk, (ih hr).1, (ih hr).2]
              · simp [hk] at h
                obtain ⟨hs, ho⟩ := h
                simp [← hs, ← ho, Json.isArr, hk, (ih hr).1, (ih hr).2]

/-- The record count of a successful `process` loop equals the total
size of the list-valued entries. -/
theorem processEntries_count {kvs : Obj} {sel oth : List (String × List Obj)}
    (h : processEntries kvs = Except.ok (sel, oth)) :
    ((sel.map (fun p => p.2.length)).sum + (oth.map (fun p => p.2.length)).sum) =
      ((kvs.filterMap (fun p =>
        match p.2 with
        | Json.arr items => some items.length
        | _ => none)).sum) := by
  induction kvs generalizing sel oth with
  | nil => simp [processEntries] at h; simp [h.1, h.2]
  | cons p rest ih =>
    obtain ⟨k, v⟩ := p
    cases v <;> simp only [processEntries] at h <;>
      first
      | · have := ih h
          simpa using this
      | · rename_i items
          cases hc : convertList items with
          | error e => rw [hc] at h; simp at h
          | ok converted =>
            rw [hc] at h
            cases hr : processEntries rest with
            | error e => rw [hr] at h; simp at h
            | ok q =>
              obtain ⟨sel', oth'⟩ := q
              rw [hr] at h
              have hsum := ih hr
              have hlen := convertList_ok_length hc
              by_cases hk : k ∈ selected_ids
              · simp [hk] at h
                obtain ⟨hs, ho⟩ := h
                simp [← hs, ← ho]
                omega
              · simp [hk] at h
                obtain ⟨hs, ho⟩ := h
                simp [← hs, ← ho]
                omega

end Converter

/-- Left conjunct of a true boolean conjunction. -/
theorem band_left {a b : Bool} (h : (a && b) = true) : a = true := by
  simp only [Bool.and_eq_true] at h; exact h.1

/-- Right conjunct of a true boolean conjunction. -/
theorem band_right {a b : Bool} (h : (a && b) = true) : b = true := by
  simp only [Bool.and_eq_true] at h; exact h.2

/-- Entries of a list with `Nodup` keys are determined by their key. -/
theorem eq_of_keys_nodup {α : Type} {l : List (String × α)} {p q : String × α}
    (hnd : (l.map Prod.fst).Nodup) (hp : p ∈ l) (hq : q ∈ l) (hk : p.1 = q.1) :
    p = q := by
  induction l with
  | nil => cases hp
  | cons a rest ih =>
    simp only [List.map_cons, List.nodup_cons] at hnd
    obtain ⟨hna, hrest⟩ := hnd
    rcases List.mem_cons.mp hp with rfl | hp'
    · rcases List.mem_cons.mp hq with rfl | hq'
      · rfl
      · exact absurd (hk ▸ List.mem_map_of_mem Prod.fst hq') hna
    · rcases List.mem_cons.mp hq with rfl | hq'
      · exact absurd (hk ▸ List.mem_map_of_mem Prod.fst hp') hna
      · exact ih hrest hp' hq'

/-- A key of a filtered entry list whose predicate demands a list value
comes from a list-valued entry. -/
theorem mem_filter_isArr {kvs : Obj} {k : String} {q : String × Json → Bool}
    (hq : ∀ p, q p = true → p.2.isArr = true)
    (hk : k ∈ (kvs.filter q).map Prod.fst) :
    ∃ items, (k, Json.arr items) ∈ kvs := by
  obtain ⟨p, hp, hpk⟩ := List.mem_map.mp hk
  obtain ⟨hin, hpred⟩ := List.mem_filter.mp hp
  have harr := hq p hpred
  obtain ⟨k', v⟩ := p
  cases v <;> simp [Json.isArr] at harr
  rename_i items
  cases hpk
  exact ⟨items, hin⟩

/-- C1: for every input record, `convert_record` returns exactly the
three fields `question`, `fact`, `name`; `fact` equals
`choices[answer]` when `answer` is a string key of the `choices` dict,
otherwise `fact` is null; `question` and `name` are passed through
verbatim (null when absent). -/
theorem C1_convert_record_fields (rec : Obj) :
    Converter.convert_record rec =
      [("question", dget rec "question"),
       ("fact", Converter.fact_spec rec),
       ("name", dget rec "name")] := by
  simp only [Converter.convert_record, Converter.fact_spec]
  cases hc : dget rec "choices" <;> cases ha : dget rec "answer" <;>
    simp [Json.falsy, dget, dgetD] <;>
    (try split_ifs) <;> simp_all [List.isEmpty_iff]

/-- C3: for every dataset on which `process` succeeds, the total number
of records across the `selected` and `others` outputs equals the number
of input records sitting under an identifier whose value is a list, and
every output identifier comes from a list-valued entry (records under
non-list identifiers appear in neither output). -/
theorem C3_process_record_totals (kvs : Obj) (sel oth : List (String × List Obj))
    (h : Converter.process (Json.obj kvs) = Except.ok (sel, oth)) :
    ((sel.map (fun p => p.2.length)).sum + (oth.map (fun p => p.2.length)).sum =
      (kvs.filterMap (fun p =>
        match p.2 with
        | Json.arr items => some items.length
        | _ => none)).sum) ∧
    ∀ k, (k ∈ sel.map Prod.fst ∨ k ∈ oth.map Prod.fst) →
      ∃ items, (k, Json.arr items) ∈ kvs := by
  have h' : Converter.processEntries kvs = Except.ok (sel, oth) := h
  refine ⟨Converter.processEntries_count h', ?_⟩
  intro k hk
  have hkeys := Converter.processEntries_keys h'
  rcases hk with hk | hk
  · rw [hkeys.1] at hk
    exact mem_filter_isArr (fun p hp => band_left hp) hk
  · rw [hkeys.2] at hk
    exact mem_filter_isArr (fun p hp => band_left hp) hk

/-- Witness for C3 at a concrete dataset. -/
theorem C3_witness :
    (Converter.process (Json.obj [("10000", Json.arr [Json.obj []]), ("a", Json.str "x")]) =
      Except.ok ([("10000", [[("question", Json.null), ("fact", Json.null), ("name", Json.null)]])], [])) ∧
    ((([("10000", [[("question", Json.null), ("fact", Json.null), ("name", Json.null)]])].map
        (fun p => p.2.length)).sum +
      (([] : List (String × List Obj)).map (fun p => p.2.length)).sum =
      (([("10000", Json.arr [Json.obj []]), ("a", Json.str "x")] : Obj).filterMap (fun p =>
        match p.2 with
        | Json.arr items => some items.length
        | _ => none)).sum) ∧
     ∀ k, (k ∈ [("10000", [[("question", Json.null), ("fact", Json.null), ("name", Json.null)]])].map Prod.fst ∨
           k ∈ ([] : List (String × List Obj)).map Prod.fst) →
       ∃ items, (k, Json.arr items) ∈ ([("10000", Json.arr [Json.obj []]), ("a", Json.str "x")] : Obj)) :=
  ⟨rfl, C3_process_record_totals _ _ _ rfl⟩

/-- C4: for every dataset on which `process` succeeds and whose keys are
distinct (as in a real dict), the keys of `selected` are exactly the
list-valued identifiers in `{"10000", ..., "10009"}` in input order, the
keys of `others` are exactly the remaining list-valued identifiers in
input order, no selected-range identifier ever reaches `others` (and
vice versa), and identifiers with a non-list value reach neither
output. -/
theorem C4_process_partition (kvs : Obj) (sel oth : List (String × List Obj))
    (hnd : (kvs.map Prod.fst).Nodup)
    (h : Converter.process (Json.obj kvs) = Except.ok (sel, oth)) :
    (sel.map Prod.fst =
      (kvs.filter (fun p => p.2.isArr && decide (p.1 ∈ Converter.selected_ids))).map Prod.fst) ∧
    (oth.map Prod.fst =
      (kvs.filter (fun p => p.2.isArr && !decide (p.1 ∈ Converter.selected_ids))).map Prod.fst) ∧
    (∀ k ∈ Converter.selected_ids, k ∉ oth.map Prod.fst) ∧
    (∀ k, k ∉ Converter.selected_ids → k ∉ sel.map Prod.fst) ∧
    (∀ p ∈ kvs, p.2.isArr = false → p.1 ∉ sel.map Prod.fst ∧ p.1 ∉ oth.map Prod.fst) := by
  have h' : Converter.processEntries kvs = Except.ok (sel, oth) := h
  have hkeys := Converter.processEntries_keys h'
  refine ⟨hkeys.1, hkeys.2, ?_, ?_, ?_⟩
  · intro k hksel hmem
    rw [hkeys.2] at hmem
    obtain ⟨p, hp, hpk⟩ := List.mem_map.mp hmem
    obtain ⟨_, hpred⟩ := List.mem_filter.mp hp
    have := band_right hpred
    rw [hpk] at this
    simp [hksel] at this
  · intro k hknot hmem
    rw [hkeys.1] at hmem
    obtain ⟨p, hp, hpk⟩ := List.mem_map.mp hmem
    obtain ⟨_, hpred⟩ := List.mem_filter.mp hp
    have := band_right hpred
    rw [hpk] at this
    simp [hknot] at this
  · intro p hp harr
    constructor
    · intro hmem
      rw [hkeys.1] at hmem
      obtain ⟨items, hitems⟩ :=
        mem_filter_isArr (fun p hp => band_left hp) hmem
      have heq := eq_of_keys_nodup hnd hp hitems rfl
      rw [heq] at harr
      simp [Json.isArr] at harr
    · intro hmem
      rw [hkeys.2] at hmem
      obtain ⟨items, hitems⟩ :=
        mem_filter_isArr (fun p hp => band_left hp) hmem
      have heq := eq_of_keys_nodup hnd hp hitems rfl
      rw [heq] at harr
      simp [Json.isArr] at harr


/-- Witness for C4 at a concrete dataset. -/
theorem C4_witness :
    ((([("10000", Json.arr [])] : Obj).map Prod.fst).Nodup ∧
     Converter.process (Json.obj [("10000", Json.arr [])]) =
       Except.ok ([("10000", [])], [])) ∧
    (([("10000", ([] : List Obj))].map Prod.fst =
        (([("10000", Json.arr [])] : Obj).filter
          (fun p => p.2.isArr && decide (p.1 ∈ Converter.selected_ids))).map Prod.fst) ∧
     (([] : List (String × List Obj)).map Prod.fst =
        (([("10000", Json.arr [])] : Obj).filter
          (fun p => p.2.isArr && !decide (p.1 ∈ Converter.selected_ids))).map Prod.fst) ∧
     (∀ k ∈ Converter.selected_ids, k ∉ ([] : List (String × List Obj)).map Prod.fst) ∧
     (∀ k, k ∉ Converter.selected_ids → k ∉ [("10000", ([] : List Obj))].map Prod.fst) ∧
     (∀ p ∈ ([("10000", Json.arr [])] : Obj), p.2.isArr = false →
        p.1 ∉ [("10000", ([] : List Obj))].map Prod.fst ∧
        p.1 ∉ ([] : List (String × List Obj)).map Prod.fst)) :=
  ⟨⟨by decide, rfl⟩, C4_process_partition _ _ _ (by decide) rfl⟩

/-- C7: when the top-level JSON value is not an object, the Converter's
`process` and the Splitter's `main` both abort with an error.  In the
model all output (file contents, shard files) exists only in the
`Except.ok` result, and in the source the `ValueError` is raised before
any `open(..., "w")` and before `ensure_outdir`, so no output file is
written and no output directory is created on this path. -/
theorem C7_nonobject_input_aborts (data : Json) (n : Nat) (b : Bool)
    (h : data.isObj = false) :
    Converter.process data =
      Except.error "Input must be a JSON object mapping id -> list[records]." ∧
    Splitter.main data n b =
      Except.error "Input JSON must be a dict mapping original_id -> list of MCQ items." := by
  cases data <;> simp [Json.isObj] at h <;> exact ⟨rfl, rfl⟩

/-- Witness for C7 at a concrete non-object input. -/
theorem C7_witness :
    (Json.arr [Json.num 1]).isObj = false ∧
    (Converter.process (Json.arr [Json.num 1]) =
      Except.error "Input must be a JSON object mapping id -> list[records]." ∧
     Splitter.main (Json.arr [Json.num 1]) 3 true =
      Except.error "Input JSON must be a dict mapping original_id -> list of MCQ items.") :=
  ⟨rfl, C7_nonobject_input_aborts (Json.arr [Json.num 1]) 3 true rfl⟩

namespace Splitter

/-- For a record whose `answer` value is hashable, the loop body of
`transform_items` raises nothing and emits exactly what the spec
describes. -/
theorem transformItem_hashable (rec : Obj)
    (h : (dget rec "answer").hashable = true) :
    transformItem (Json.obj rec) = Except.ok (emit_spec rec) := by
  simp only [transformItem, emit_spec]
  cases ha : dget rec "answer" with
  | arr xs => rw [ha] at h; simp [Json.hashable] at h
  | obj o => rw [ha] at h; simp [Json.hashable] at h
  | str s =>
    cases hf : List.find? (fun p => p.1 == "choices") rec with
    | none => simp only [dget, dgetD, hf]; rfl
    | some p =>
      simp only [dget, dgetD, hf]
      cases hp : p.2 <;> try rfl
      rename_i ckvs
      cases hq : List.find? (fun pr => pr.1 == s) ckvs with
      | none => simp [hq]
      | some q => cases hn : q.2.isNull <;> simp [hq, hn]
  | null =>
    cases hf : List.find? (fun p => p.1 == "choices") rec with
    | none => simp only [dget, dgetD, hf]
    | some p =>
      simp only [dget, dgetD, hf]
      cases hp : p.2 <;> rfl
  | bool b =>
    cases hf : List.find? (fun p => p.1 == "choices") rec with
    | none => simp only [dget, dgetD, hf]
    | some p =>
      simp only [dget, dgetD, hf]
      cases hp : p.2 <;> rfl
  | num n =>
    cases hf : List.find? (fun p => p.1 == "choices") rec with
    | none => simp only [dget, dgetD, hf]
    | some p =>
      simp only [dget, dgetD, hf]
      cases hp : p.2 <;> rfl

end Splitter

/-- C2 counterexample: a record whose `answer` is a list (an unhashable
value) and whose `choices` is a non-empty dict is not dropped silently:
`ans not in choices` raises `TypeError`, so `transform_items` aborts
instead of returning an output.  This refutes the claim's "a record
failing the condition is dropped silently with no error" as stated for
arbitrary records. -/
theorem C2_counterexample :
    Splitter.transform_items
      [Json.obj [("answer", Json.arr []), ("choices", Json.obj [("A", Json.str "x")])]] =
      Except.error "TypeError: unhashable type: list" := rfl

/-- C2 (amended): for every list of records whose `answer` values are
hashable (null, boolean, number or string — in particular for every
record of the documented shape, where `answer` is a string or absent), a
record is emitted iff its `choices` field is an object, its `answer` is
a key present in it and the corresponding value is non-null; an emitted
record is `{name, question, fact}` with `fact = choices[answer]`; a
record failing the condition is dropped silently with no error. -/
theorem C2_transform_items_emits (items : List Json)
    (h : ∀ it ∈ items, ∃ rec, it = Json.obj rec ∧ (dget rec "answer").hashable = true) :
    Splitter.transform_items items =
      Except.ok (items.filterMap (fun it =>
        match it with
        | Json.obj rec => Splitter.emit_spec rec
        | _ => none)) := by
  induction items with
  | nil => rfl
  | cons it rest ih =>
    obtain ⟨rec, heq, hh⟩ := h it (List.mem_cons_self it rest)
    subst heq
    have hrest := ih (fun x hx => h x (List.mem_cons_of_mem _ hx))
    simp only [Splitter.transform_items, Splitter.transformItem_hashable rec hh, hrest]
    cases he : Splitter.emit_spec rec <;> simp [he]

/-- Witness for C2 at a concrete record list: the first record resolves
its answer, the second has an absent answer and is dropped. -/
theorem C2_witness :
    (∀ it ∈ [Json.obj [("answer", Json.str "A"), ("choices", Json.obj [("A", Json.str "f")])],
             Json.obj [("question", Json.str "Q")]],
       ∃ rec, it = Json.obj rec ∧ (dget rec "answer").hashable = true) ∧
    Splitter.transform_items
      [Json.obj [("answer", Json.str "A"), ("choices", Json.obj [("A", Json.str "f")])],
       Json.obj [("question", Json.str "Q")]] =
      Except.ok ([Json.obj [("answer", Json.str "A"), ("choices", Json.obj [("A", Json.str "f")])],
                  Json.obj [("question", Json.str "Q")]].filterMap (fun it =>
        match it with
        | Json.obj rec => Splitter.emit_spec rec
        | _ => none)) :=
  ⟨by intro it hit; fin_cases hit <;> exact ⟨_, rfl, rfl⟩,
   C2_transform_items_emits _ (by intro it hit; fin_cases hit <;> exact ⟨_, rfl, rfl⟩)⟩

namespace Splitter

/-- The bucket-building loop preserves the number of buckets. -/
theorem shardIdsGo_length (n : Nat) (ids : List String) :
    ∀ (buckets : List (List String)) (idx : Nat),
      (shardIdsGo n buckets idx ids).length = buckets.length := by
  induction ids with
  | nil => intro buckets idx; rfl
  | cons pid rest ih =>
    intro buckets idx
    rw [shardIdsGo, ih]
    simp [appendAt]

/-- `shard_ids` always returns exactly `n` buckets. -/
theorem shard_ids_length (ids : List String) (n : Nat) :
    (shard_ids ids n).length = n := by
  rw [shard_ids, shardIdsGo_length]
  simp

/-- Invariant of the bucket-building loop: bucket `j` holds its starting
contents followed by the ids whose (enumerated) position is congruent to
`j` modulo `n`, in order. -/
theorem shardIdsGo_getD {n : Nat} (ids : List String) :
    ∀ (buckets : List (List String)) (idx j : Nat),
      buckets.length = n → j < n →
      (shardIdsGo n buckets idx ids).getD j [] =
        buckets.getD j [] ++
          ((ids.enumFrom idx).filter (fun p => p.1 % n == j)).map Prod.snd := by
  induction ids with
  | nil => intro buckets idx j hlen hj; simp [shardIdsGo]
  | cons pid rest ih =>
    intro buckets idx j hlen hj
    have hlen' : (appendAt buckets (idx % n) pid).length = n := by
      simp [appendAt, hlen]
    rw [shardIdsGo, ih _ _ j hlen' hj]
    by_cases hcase : idx % n = j
    · rw [List.enumFrom_cons, List.filter_cons_of_pos (by simp [hcase])]
      have hj' : j < buckets.length := hlen ▸ hj
      have hset : (appendAt buckets (idx % n) pid).getD j [] = buckets.getD j [] ++ [pid] := by
        subst hcase
        simp [appendAt, List.getD_eq_getElem?_getD, List.getElem?_set_self hj']
      rw [hset]
      simp
    · rw [List.enumFrom_cons, List.filter_cons_of_neg (by simp [hcase])]
      have hset : (appendAt buckets (idx % n) pid).getD j [] = buckets.getD j [] := by
        simp [appendAt, List.getD_eq_getElem?_getD, List.getElem?_set_ne hcase]
      rw [hset]

/-- Bucket `j` of `shard_ids` is exactly the ids at positions congruent
to `j` modulo `n`, in their original relative order. -/
theorem shard_ids_getD {n : Nat} (ids : List String) (j : Nat) (hj : j < n) :
    (shard_ids ids n).getD j [] =
      ((ids.enum.filter (fun p => p.1 % n == j)).map Prod.snd) := by
  rw [shard_ids, shardIdsGo_getD ids _ 0 j (by simp) hj]
  simp [List.enum]

/-- Membership in a bucket of `shard_ids`, position-wise. -/
theorem mem_shard_ids {n : Nat} {ids : List String} {j : Nat} (hj : j < n)
    {k : String} :
    k ∈ (shard_ids ids n).getD j [] ↔
      ∃ idx, ∃ h : idx < ids.length, ids.get ⟨idx, h⟩ = k ∧ idx % n = j := by
  rw [shard_ids_getD ids j hj]
  simp only [List.mem_map, List.mem_filter]
  constructor
  · rintro ⟨⟨i, a⟩, ⟨hpe, hpf⟩, hpk⟩
    have hga : ids[i]? = some a := List.mem_enum_iff_getElem?.mp hpe
    have hi : i < ids.length := by
      by_contra hbig
      rw [List.getElem?_eq_none (Nat.le_of_not_lt hbig)] at hga
      cases hga
    rw [List.getElem?_eq_getElem hi] at hga
    injection hga with hga
    refine ⟨i, hi, ?_, by simpa using hpf⟩
    rw [List.get_eq_getElem, hga]
    exact hpk
  · rintro ⟨idx, h, hk, hmod⟩
    refine ⟨(idx, ids.get ⟨idx, h⟩), ⟨?_, by simpa using hmod⟩, hk⟩
    exact List.mem_enum_iff_getElem?.mpr
      (by simp [List.getElem?_eq_getElem h, List.get_eq_getElem])

end Splitter

/-- C6: for a filtered identifier list and shard count `n ≥ 1`, bucket
`j` (written to the shard file numbered `j + 1`, since `main` enumerates
buckets from 1) holds exactly the identifiers whose post-filter position
`idx` satisfies `idx % n = j`, in their processing order — so the
identifier at position `idx` lands in shard `(idx % n) + 1` and relative
order within each shard is preserved. -/
theorem C6_round_robin_assignment (ids : List String) (n : Nat) (hn : 0 < n) :
    (∀ j, j < n →
      (Splitter.shard_ids ids n).getD j [] =
        ((ids.enum.filter (fun p => p.1 % n == j)).map Prod.snd)) ∧
    (∀ idx, ∀ h : idx < ids.length,
      ids.get ⟨idx, h⟩ ∈ (Splitter.shard_ids ids n).getD (idx % n) []) := by
  refine ⟨fun j hj => Splitter.shard_ids_getD ids j hj, fun idx h => ?_⟩
  exact (Splitter.mem_shard_ids (Nat.mod_lt _ hn)).mpr ⟨idx, h, rfl, rfl⟩

/-- Witness for C6 at a concrete id list and shard count. -/
theorem C6_witness :
    0 < 2 ∧
    ((∀ j, j < 2 →
      (Splitter.shard_ids ["a", "b", "c"] 2).getD j [] =
        ((["a", "b", "c"].enum.filter (fun p => p.1 % 2 == j)).map Prod.snd)) ∧
     (∀ idx, ∀ h : idx < (["a", "b", "c"] : List String).length,
      (["a", "b", "c"] : List String).get ⟨idx, h⟩ ∈
        (Splitter.shard_ids ["a", "b", "c"] 2).getD (idx % 2) [])) :=
  ⟨by decide, C6_round_robin_assignment ["a", "b", "c"] 2 (by decide)⟩

namespace Splitter

/-- Inverting a successful `main` run: the unique `transformed` map and
the shape of the shard list. -/
theorem main_ok_inv {kvs : Obj} {n : Nat} {b : Bool}
    {shards : List (String × List (String × List Obj))}
    (h : main (Json.obj kvs) n b = Except.ok shards) :
    ∃ transformed,
      buildTransformed kvs (allIdsOf kvs b) = Except.ok transformed ∧
      shards = (shard_ids (filteredIdsOf transformed (allIdsOf kvs b)) n).enum.map (fun p =>
        ("split_" ++ zpad (p.1 + 1) (max 2 (toString n).length) ++ ".json",
         p.2.map (fun pid => (pid, lookupD transformed pid)))) := by
  simp only [main] at h
  cases hbt : buildTransformed kvs (allIdsOf kvs b) with
  | error e => rw [hbt] at h; simp at h
  | ok t =>
    rw [hbt] at h
    injection h with h
    exact ⟨t, rfl, h.symm⟩

/-- Characterisation of the `transformed` dict built by `main`: an entry
`(pid, l)` is present iff `pid` is one of the processed ids and its
value transforms to the non-empty list `l`. -/
theorem buildTransformed_mem {kvs : Obj} :
    ∀ {ids : List String} {t : List (String × List Obj)},
      buildTransformed kvs ids = Except.ok t →
      ∀ {pid : String} {l : List Obj},
        ((pid, l) ∈ t ↔
          pid ∈ ids ∧ transformValue (dget kvs pid) = Except.ok l ∧ l ≠ []) := by
  intro ids
  induction ids with
  | nil =>
    intro t h pid l
    simp only [buildTransformed] at h
    injection h with h
    simp [← h]
  | cons pid0 rest ih =>
    intro t h pid l
    simp only [buildTransformed] at h
    cases htv : transformValue (dget kvs pid0) with
    | error e => rw [htv] at h; simp at h
    | ok lv =>
      rw [htv] at h
      cases hbt : buildTransformed kvs rest with
      | error e => rw [hbt] at h; simp at h
      | ok tl =>
        rw [hbt] at h
        dsimp only at h
        by_cases he : lv.isEmpty = true
        · rw [if_pos he] at h
          injection h with h
          rw [← h]
          constructor
          · intro hm
            have hrest := (ih hbt).mp hm
            exact ⟨List.mem_cons_of_mem _ hrest.1, hrest.2⟩
          · rintro ⟨hmem, htv', hne⟩
            rcases List.mem_cons.mp hmem with rfl | hmem'
            · rw [htv] at htv'
              injection htv' with heq
              rw [← heq] at hne
              rw [List.isEmpty_iff] at he
              exact absurd he hne
            · exact (ih hbt).mpr ⟨hmem', htv', hne⟩
        · rw [if_neg he] at h
          injection h with h
          rw [← h]
          constructor
          · intro hm
            rcases List.mem_cons.mp hm with heq | hm'
            · injection heq with h1 h2
              subst h1
              subst h2
              refine ⟨List.mem_cons_self _ _, htv, ?_⟩
              intro hl
              rw [hl] at he
              simp at he
            · have hrest := (ih hbt).mp hm'
              exact ⟨List.mem_cons_of_mem _ hrest.1, hrest.2⟩
          · rintro ⟨hmem, htv', hne⟩
            rcases List.mem_cons.mp hmem with rfl | hmem'
            · rw [htv] at htv'
              injection htv' with heq
              rw [heq]
              exact List.mem_cons_self _ _
            · exact List.mem_cons_of_mem _ ((ih hbt).mpr ⟨hmem', htv', hne⟩)

/-- `transformed[pid]` agrees with any entry of the built dict. -/
theorem lookupD_buildTransformed {kvs : Obj} {ids : List String}
    {t : List (String × List Obj)} (h : buildTransformed kvs ids = Except.ok t)
    {pid : String} {l : List Obj} (hm : (pid, l) ∈ t) :
    lookupD t pid = l := by
  unfold lookupD
  cases hf : t.find? (fun q => q.1 == pid) with
  | none =>
    rw [List.find?_eq_none] at hf
    exact absurd (by simp : ((fun q => q.1 == pid) ((pid, l) : String × List Obj)) = true)
      (hf _ hm)
  | some q =>
    have hq1 : q.1 = pid := by
      have := List.find?_some hf
      simpa using this
    have hqmem : q ∈ t := List.mem_of_find?_eq_some hf
    have hqc : transformValue (dget kvs q.1) = Except.ok q.2 :=
      ((buildTransformed_mem h).mp (by simpa using hqmem)).2.1
    have hlc : transformValue (dget kvs pid) = Except.ok l :=
      ((buildTransformed_mem h).mp hm).2.1
    rw [hq1] at hqc
    rw [hqc] at hlc
    exact Except.ok.inj hlc

/-- Membership in the filtered id list: present in `all_ids` and in the
`transformed` dict. -/
theorem mem_filteredIdsOf {t : List (String × List Obj)} {all_ids : List String}
    {pid : String} :
    pid ∈ filteredIdsOf t all_ids ↔ pid ∈ all_ids ∧ ∃ l, (pid, l) ∈ t := by
  unfold filteredIdsOf
  rw [List.mem_filter]
  constructor
  · rintro ⟨hmem, hsome⟩
    rw [List.find?_isSome] at hsome
    obtain ⟨x, hx, hpx⟩ := hsome
    have : x.1 = pid := by simpa using hpx
    exact ⟨hmem, x.2, by rw [← this]; exact hx⟩
  · rintro ⟨hmem, l, hl⟩
    refine ⟨hmem, ?_⟩
    rw [List.find?_isSome]
    exact ⟨(pid, l), hl, by simp⟩

end Splitter

/-- C8: a successful Splitter run with shard count `n` produces exactly
`n` shard files named `split_<k>.json` for `k = 1..n`, `k` zero-padded
to width `max 2 (number of digits of n)`, in order; a shard whose bucket
is empty still gets a file, whose contents are the empty JSON object. -/
theorem C8_shard_files (kvs : Obj) (n : Nat) (b : Bool)
    (shards : List (String × List (String × List Obj)))
    (hn : 1 ≤ n)
    (h : Splitter.main (Json.obj kvs) n b = Except.ok shards) :
    shards.length = n ∧
    shards.map Prod.fst =
      (List.range n).map (fun i =>
        "split_" ++ Splitter.zpad (i + 1) (max 2 (toString n).length) ++ ".json") ∧
    ∀ t, Splitter.buildTransformed kvs (Splitter.allIdsOf kvs b) = Except.ok t →
      ∀ i, ∀ hi : i < shards.length,
        (Splitter.shard_ids (Splitter.filteredIdsOf t (Splitter.allIdsOf kvs b)) n).getD i [] = [] →
          (shards.get ⟨i, hi⟩).2 = [] := by
  obtain ⟨t0, hbt, hsh⟩ := Splitter.main_ok_inv h
  subst hsh
  refine ⟨?_, ?_, ?_⟩
  · simp [Splitter.shard_ids_length]
  · rw [List.map_map]
    have hcomp : (Prod.fst ∘ fun p : Nat × List String =>
        ("split_" ++ Splitter.zpad (p.1 + 1) (max 2 (toString n).length) ++ ".json",
         p.2.map (fun pid => (pid, Splitter.lookupD t0 pid)))) =
        ((fun i => "split_" ++ Splitter.zpad (i + 1) (max 2 (toString n).length) ++ ".json") ∘
          Prod.fst) := rfl
    rw [hcomp, ← List.map_map, List.enum_map_fst, Splitter.shard_ids_length]
  · intro t hbt' i hi hempty
    rw [hbt] at hbt'
    injection hbt' with hbt''
    subst hbt''
    set fids := Splitter.filteredIdsOf t0 (Splitter.allIdsOf kvs b) with hfids
    have hlen : (Splitter.shard_ids fids n).length = n := Splitter.shard_ids_length _ _
    have hi' : i < ((Splitter.shard_ids fids n).enum.map (fun p : Nat × List String =>
        ("split_" ++ Splitter.zpad (p.1 + 1) (max 2 (toString n).length) ++ ".json",
         p.2.map (fun pid => (pid, Splitter.lookupD t0 pid))))).length := hi
    rw [List.get_eq_getElem, List.getElem_map]
    rw [List.getElem_enum]
    have hib : i < (Splitter.shard_ids fids n).length := by
      simpa [hlen] using hi
    have : (Splitter.shard_ids fids n)[i] = (Splitter.shard_ids fids n).getD i [] := by
      rw [List.getD_eq_getElem?_getD, List.getElem?_eq_getElem hib]
      rfl
    simp only [this, hempty, List.map_nil]

namespace Splitter

/-- Membership in the (optionally sorted) id list of `main` is
membership among the dataset keys. -/
theorem mem_allIdsOf {kvs : Obj} {b : Bool} {k : String} :
    k ∈ allIdsOf kvs b ↔ k ∈ kvs.map Prod.fst := by
  unfold allIdsOf
  cases b
  · simp
  · simp only [if_pos rfl]
    exact (List.perm_insertionSort (fun a c => a ≤ c) (kvs.map Prod.fst)).mem_iff

/-- Sorting preserves distinctness of the id list. -/
theorem nodup_allIdsOf {kvs : Obj} {b : Bool}
    (hnd : (kvs.map Prod.fst).Nodup) : (allIdsOf kvs b).Nodup := by
  unfold allIdsOf
  cases b
  · simpa
  · simp only [if_pos rfl]
    exact ((List.perm_insertionSort (fun a c => a ≤ c) (kvs.map Prod.fst)).nodup_iff).mpr hnd

end Splitter

/-- On a dict with distinct keys, `get` returns the value of the unique
entry with the requested key. -/
theorem dget_eq_of_mem_nodup {kvs : Obj} {k : String} {v : Json}
    (hnd : (kvs.map Prod.fst).Nodup) (hm : (k, v) ∈ kvs) : dget kvs k = v := by
  induction kvs with
  | nil => cases hm
  | cons p rest ih =>
    obtain ⟨k0, v0⟩ := p
    simp only [List.map_cons, List.nodup_cons] at hnd
    rcases List.mem_cons.mp hm with heq | hmem
    · injection heq with h1 h2
      subst h1
      subst h2
      unfold dget dgetD
      rw [List.find?_cons_of_pos _ (by simp)]
    · unfold dget dgetD
      rw [List.find?_cons_of_neg]
      · exact ih hnd.2 hmem
      · simp only [beq_iff_eq]
        intro heq0
        exact hnd.1 (by rw [heq0]; exact List.mem_map_of_mem Prod.fst hmem)

/-- C5: for a successful Splitter run (shard count at least 1, distinct
dataset keys), the identifiers across all shard files are exactly the
input identifiers whose value, normalized and fed to `transform_items`,
yields a non-empty record list; no identifier occurs in two different
shards; and no shard maps an identifier to an empty record list. -/
theorem C5_shard_identifier_partition (kvs : Obj) (n : Nat) (b : Bool)
    (shards : List (String × List (String × List Obj)))
    (hn : 1 ≤ n) (hnd : (kvs.map Prod.fst).Nodup)
    (h : Splitter.main (Json.obj kvs) n b = Except.ok shards) :
    (∀ k : String,
      (∃ s ∈ shards, k ∈ s.2.map Prod.fst) ↔
      (∃ v, (k, v) ∈ kvs ∧ ∃ l, Splitter.transformValue v = Except.ok l ∧ l ≠ [])) ∧
    (∀ i j, ∀ hi : i < shards.length, ∀ hj : j < shards.length, i ≠ j →
      ∀ k, k ∈ (shards.get ⟨i, hi⟩).2.map Prod.fst →
        k ∉ (shards.get ⟨j, hj⟩).2.map Prod.fst) ∧
    (∀ s ∈ shards, ∀ e ∈ s.2, e.2 ≠ []) := by
  have hpos : 0 < n := hn
  obtain ⟨t0, hbt, hsh⟩ := Splitter.main_ok_inv h
  subst hsh
  set ids := Splitter.allIdsOf kvs b with hids
  set fids := Splitter.filteredIdsOf t0 ids with hfids
  set w := max 2 (toString n).length with hw
  set F : Nat × List String → String × List (String × List Obj) :=
    (fun p => ("split_" ++ Splitter.zpad (p.1 + 1) w ++ ".json",
      p.2.map (fun pid => (pid, Splitter.lookupD t0 pid)))) with hF
  have hfidsnd : fids.Nodup := (Splitter.nodup_allIdsOf hnd).filter _
  have hblen : (Splitter.shard_ids fids n).length = n := Splitter.shard_ids_length _ _
  have hproj : ∀ x : List String,
      ((x.map (fun pid => (pid, Splitter.lookupD t0 pid))).map Prod.fst) = x := by
    intro x
    induction x with
    | nil => rfl
    | cons a t iht => simp only [List.map_cons, iht]
  have hgetD : ∀ i, ∀ hilt : i < n,
      (Splitter.shard_ids fids n).getD i [] =
        (Splitter.shard_ids fids n).get ⟨i, by rw [hblen]; exact hilt⟩ := by
    intro i hilt
    rw [List.getD_eq_getElem?_getD,
      List.getElem?_eq_getElem (by rw [hblen]; exact hilt)]
    rfl
  have hbucket_fids : ∀ i, ∀ hilt : i < n, ∀ k,
      k ∈ (Splitter.shard_ids fids n).getD i [] → k ∈ fids := by
    intro i hilt k hk
    obtain ⟨idx, hidx, hget, _⟩ := (Splitter.mem_shard_ids hilt).mp hk
    exact hget ▸ List.get_mem _ _ _
  have hfids_t0 : ∀ k ∈ fids, ∃ l, (k, l) ∈ t0 :=
    fun k hk => (Splitter.mem_filteredIdsOf.mp hk).2
  refine ⟨?_, ?_, ?_⟩
  · -- union of shard identifiers
    intro k
    constructor
    · rintro ⟨s, hs, hk⟩
      obtain ⟨p, hp, rfl⟩ := List.mem_map.mp hs
      have hk' : k ∈ p.2 := by
        rw [hF] at hk
        simp only at hk
        rw [hproj p.2] at hk
        exact hk
      have hp1 : (Splitter.shard_ids fids n)[p.1]? = some p.2 :=
        List.mem_enum_iff_getElem?.mp hp
      have hp1lt : p.1 < n := by
        have := List.fst_lt_of_mem_enum hp
        rwa [hblen] at this
      have hgd : (Splitter.shard_ids fids n).getD p.1 [] = p.2 := by
        rw [List.getD_eq_getElem?_getD, hp1]
        rfl
      have hkfd : k ∈ fids := hbucket_fids p.1 hp1lt k (by rw [hgd]; exact hk')
      obtain ⟨hmemids, l, hl⟩ := Splitter.mem_filteredIdsOf.mp hkfd
      have hkmap : k ∈ kvs.map Prod.fst := Splitter.mem_allIdsOf.mp hmemids
      obtain ⟨⟨k', v⟩, hkv, hkeq⟩ := List.mem_map.mp hkmap
      cases hkeq
      have hdg : dget kvs k' = v := dget_eq_of_mem_nodup hnd hkv
      have hchar := (Splitter.buildTransformed_mem hbt).mp hl
      exact ⟨v, hkv, l, by rw [← hdg]; exact hchar.2.1, hchar.2.2⟩
    · rintro ⟨v, hkv, l, htv, hne⟩
      have hdg : dget kvs k = v := dget_eq_of_mem_nodup hnd hkv
      have hkids : k ∈ ids :=
        Splitter.mem_allIdsOf.mpr (List.mem_map_of_mem Prod.fst hkv)
      have hkt0 : (k, l) ∈ t0 :=
        (Splitter.buildTransformed_mem hbt).mpr ⟨hkids, by rw [hdg]; exact htv, hne⟩
      have hkfd : k ∈ fids := Splitter.mem_filteredIdsOf.mpr ⟨hkids, l, hkt0⟩
      obtain ⟨⟨idx, hidx⟩, hget⟩ := List.mem_iff_get.mp hkfd
      have hjlt : idx % n < n := Nat.mod_lt _ hpos
      have hbk : k ∈ (Splitter.shard_ids fids n).getD (idx % n) [] :=
        (Splitter.mem_shard_ids hjlt).mpr ⟨idx, hidx, hget, rfl⟩
      have hblt : idx % n < (Splitter.shard_ids fids n).length := by
        rw [hblen]; exact hjlt
      refine ⟨F (idx % n, (Splitter.shard_ids fids n).getD (idx % n) []), ?_, ?_⟩
      · apply List.mem_map_of_mem F
        apply List.mem_enum_iff_getElem?.mpr
        rw [List.getElem?_eq_getElem hblt]
        rw [hgetD _ hjlt]
        rfl
      · rw [hF]
        simp only
        rw [hproj]
        exact hbk
  · -- no identifier in two shards
    intro i j hi hj hij k hki hkj
    have hilen : i < n := by
      have := hi; simpa [hblen] using this
    have hjlen : j < n := by
      have := hj; simpa [hblen] using this
    have hgeti :
        ((Splitter.shard_ids fids n).enum.map F).get ⟨i, hi⟩ =
          F (i, (Splitter.shard_ids fids n).getD i []) := by
      rw [List.get_eq_getElem, List.getElem_map, List.getElem_enum, hgetD _ hilen]
      rfl
    have hgetj :
        ((Splitter.shard_ids fids n).enum.map F).get ⟨j, hj⟩ =
          F (j, (Splitter.shard_ids fids n).getD j []) := by
      rw [List.get_eq_getElem, List.getElem_map, List.getElem_enum, hgetD _ hjlen]
      rfl
    rw [hgeti] at hki
    rw [hgetj] at hkj
    rw [hF] at hki hkj
    simp only at hki hkj
    rw [hproj] at hki hkj
    obtain ⟨idx1, hidx1, hget1, hmod1⟩ := (Splitter.mem_shard_ids hilen).mp hki
    obtain ⟨idx2, hidx2, hget2, hmod2⟩ := (Splitter.mem_shard_ids hjlen).mp hkj
    have : (⟨idx1, hidx1⟩ : Fin fids.length) = ⟨idx2, hidx2⟩ :=
      (hfidsnd.get_inj_iff).mp (hget1.trans hget2.symm)
    have hidx12 : idx1 = idx2 := by
      injection this
    exact hij (by rw [← hmod1, ← hmod2, hidx12])
  · -- no empty record list in any shard
    rintro s hs e he
    obtain ⟨p, hp, rfl⟩ := List.mem_map.mp hs
    rw [hF] at he
    simp only at he
    obtain ⟨pid, hpid, rfl⟩ := List.mem_map.mp he
    have hp1lt : p.1 < n := by
      have := List.fst_lt_of_mem_enum hp
      rwa [hblen] at this
    have hgd : (Splitter.shard_ids fids n).getD p.1 [] = p.2 := by
      rw [List.getD_eq_getElem?_getD, List.mem_enum_iff_getElem?.mp hp]
      rfl
    have hpidf : pid ∈ fids := hbucket_fids p.1 hp1lt pid (by rw [hgd]; exact hpid)
    obtain ⟨l, hl⟩ := hfids_t0 pid hpidf
    have hlook : Splitter.lookupD t0 pid = l := Splitter.lookupD_buildTransformed hbt hl
    have hlne : l ≠ [] := ((Splitter.buildTransformed_mem hbt).mp hl).2.2
    simpa [hlook] using hlne

/-- Witness for C8 at a concrete dataset and shard count 3: one id lands
in the first bucket, the last two shard files hold the empty object. -/
theorem C8_witness :
    1 ≤ 3 ∧
    Splitter.main
      (Json.obj [("a", Json.arr [Json.obj [("answer", Json.str "A"),
        ("choices", Json.obj [("A", Json.str "f")])]])]) 3 false =
      Except.ok
        [("split_01.json",
          [("a", [[("name", Json.null), ("question", Json.null), ("fact", Json.str "f")]])]),
         ("split_02.json", []),
         ("split_03.json", [])] ∧
    (([("split_01.json",
        [("a", [[("name", Json.null), ("question", Json.null), ("fact", Json.str "f")]])]),
       ("split_02.json", ([] : List (String × List Obj))),
       ("split_03.json", ([] : List (String × List Obj)))].length = 3) ∧
     ([("split_01.json",
        [("a", [[("name", Json.null), ("question", Json.null), ("fact", Json.str "f")]])]),
       ("split_02.json", ([] : List (String × List Obj))),
       ("split_03.json", ([] : List (String × List Obj)))].map Prod.fst =
       (List.range 3).map (fun i =>
         "split_" ++ Splitter.zpad (i + 1) (max 2 (toString 3).length) ++ ".json")) ∧
     ∀ t, Splitter.buildTransformed
        [("a", Json.arr [Json.obj [("answer", Json.str "A"),
          ("choices", Json.obj [("A", Json.str "f")])]])]
        (Splitter.allIdsOf
          [("a", Json.arr [Json.obj [("answer", Json.str "A"),
            ("choices", Json.obj [("A", Json.str "f")])]])] false) = Except.ok t →
      ∀ i, ∀ hi : i <
        [("split_01.json",
          [("a", [[("name", Json.null), ("question", Json.null), ("fact", Json.str "f")]])]),
         ("split_02.json", ([] : List (String × List Obj))),
         ("split_03.json", ([] : List (String × List Obj)))].length,
        (Splitter.shard_ids (Splitter.filteredIdsOf t
          (Splitter.allIdsOf
            [("a", Json.arr [Json.obj [("answer", Json.str "A"),
              ("choices", Json.obj [("A", Json.str "f")])]])] false)) 3).getD i [] = [] →
          ([("split_01.json",
            [("a", [[("name", Json.null), ("question", Json.null), ("fact", Json.str "f")]])]),
           ("split_02.json", ([] : List (String × List Obj))),
           ("split_03.json", ([] : List (String × List Obj)))].get ⟨i, hi⟩).2 = []) :=
  ⟨by decide, rfl, C8_shard_files _ 3 false _ (by decide) rfl⟩

/-- Witness for C5 at a concrete dataset with shard count 2: id "a"
survives with one record, id "b" has no surviving record and vanishes;
the second shard is empty. -/
theorem C5_witness :
    1 ≤ 2 ∧
    (([("a", Json.arr [Json.obj [("answer", Json.str "A"),
        ("choices", Json.obj [("A", Json.str "f")])]]),
       ("b", Json.arr [])] : Obj).map Prod.fst).Nodup ∧
    Splitter.main
      (Json.obj [("a", Json.arr [Json.obj [("answer", Json.str "A"),
        ("choices", Json.obj [("A", Json.str "f")])]]), ("b", Json.arr [])]) 2 false =
      Except.ok
        [("split_01.json",
          [("a", [[("name", Json.null), ("question", Json.null), ("fact", Json.str "f")]])]),
         ("split_02.json", [])] ∧
    ((∀ k : String,
      (∃ s ∈ [("split_01.json",
          [("a", [[("name", Json.null), ("question", Json.null), ("fact", Json.str "f")]])]),
         ("split_02.json", ([] : List (String × List Obj)))], k ∈ s.2.map Prod.fst) ↔
      (∃ v, (k, v) ∈ ([("a", Json.arr [Json.obj [("answer", Json.str "A"),
          ("choices", Json.obj [("A", Json.str "f")])]]), ("b", Json.arr [])] : Obj) ∧
        ∃ l, Splitter.transformValue v = Except.ok l ∧ l ≠ [])) ∧
     (∀ i j, ∀ hi : i < [("split_01.json",
          [("a", [[("name", Json.null), ("question", Json.null), ("fact", Json.str "f")]])]),
         ("split_02.json", ([] : List (String × List Obj)))].length,
       ∀ hj : j < [("split_01.json",
          [("a", [[("name", Json.null), ("question", Json.null), ("fact", Json.str "f")]])]),
         ("split_02.json", ([] : List (String × List Obj)))].length, i ≠ j →
       ∀ k, k ∈ ([("split_01.json",
          [("a", [[("name", Json.null), ("question", Json.null), ("fact", Json.str "f")]])]),
         ("split_02.json", ([] : List (String × List Obj)))].get ⟨i, hi⟩).2.map Prod.fst →
         k ∉ ([("split_01.json",
          [("a", [[("name", Json.null), ("question", Json.null), ("fact", Json.str "f")]])]),
         ("split_02.json", ([] : List (String × List Obj)))].get ⟨j, hj⟩).2.map Prod.fst) ∧
     (∀ s ∈ [("split_01.json",
          [("a", [[("name", Json.null), ("question", Json.null), ("fact", Json.str "f")]])]),
         ("split_02.json", ([] : List (String × List Obj)))], ∀ e ∈ s.2, e.2 ≠ [])) :=
  ⟨by decide, by decide, rfl,
   C5_shard_identifier_partition _ 2 false _ (by decide) (by decide) rfl⟩

/-- `dict.get` depends only on the key-value association, not on entry
order, when keys are distinct. -/
theorem dget_congr_perm {kvs1 kvs2 : Obj} (hnd : (kvs1.map Prod.fst).Nodup)
    (hperm : kvs1.Perm kvs2) (k : String) : dget kvs1 k = dget kvs2 k := by
  unfold dget dgetD
  cases hf1 : kvs1.find? (fun p => p.1 == k) with
  | none =>
    rw [List.find?_eq_none] at hf1
    have hf2 : kvs2.find? (fun p => p.1 == k) = none := by
      rw [List.find?_eq_none]
      intro x hx
      exact hf1 x (hperm.mem_iff.mpr hx)
    rw [hf2]
  | some p =>
    have hp1 : (p.1 == k) = true := by
      have := List.find?_some hf1
      simpa using this
    have hpm : p ∈ kvs2 := hperm.mem_iff.mp (List.mem_of_find?_eq_some hf1)
    cases hf2 : kvs2.find? (fun p => p.1 == k) with
    | none =>
      rw [List.find?_eq_none] at hf2
      exact absurd hp1 (hf2 p hpm)
    | some q =>
      have hq1 : (q.1 == k) = true := by
        have := List.find?_some hf2
        simpa using this
      have hqm : q ∈ kvs1 := hperm.mem_iff.mpr (List.mem_of_find?_eq_some hf2)
      have hpq : p = q := by
        apply eq_of_keys_nodup hnd (List.mem_of_find?_eq_some hf1) hqm
        rw [beq_iff_eq] at hp1 hq1
        rw [hp1, hq1]
      rw [hpq]

namespace Splitter

/-- `buildTransformed` reads the dataset only through `dget`. -/
theorem buildTransformed_congr {kvs1 kvs2 : Obj}
    (hdg : ∀ k, dget kvs1 k = dget kvs2 k) :
    ∀ ids, buildTransformed kvs1 ids = buildTransformed kvs2 ids := by
  intro ids
  induction ids with
  | nil => rfl
  | cons pid rest ih => simp only [buildTransformed, hdg, ih]

/-- With `--sort_ids`, the id list is the same for any two insertion
orders of the same entries. -/
theorem allIdsOf_sorted_eq {kvs1 kvs2 : Obj} (hperm : kvs1.Perm kvs2) :
    allIdsOf kvs1 true = allIdsOf kvs2 true := by
  unfold allIdsOf
  simp only [if_pos rfl]
  have hs1 : (List.insertionSort (fun a c : String => a ≤ c) (kvs1.map Prod.fst)).Sorted
      (fun a c => a ≤ c) :=
    List.sorted_insertionSort _ _
  have hs2 : (List.insertionSort (fun a c : String => a ≤ c) (kvs2.map Prod.fst)).Sorted
      (fun a c => a ≤ c) :=
    List.sorted_insertionSort _ _
  have hp : (List.insertionSort (fun a c : String => a ≤ c) (kvs1.map Prod.fst)).Perm
      (List.insertionSort (fun a c : String => a ≤ c) (kvs2.map Prod.fst)) :=
    (List.perm_insertionSort _ _).trans
      ((hperm.map Prod.fst).trans (List.perm_insertionSort _ _).symm)
  exact List.eq_of_perm_of_sorted hp hs1 hs2

end Splitter

/-- C9: with the `sort_ids` flag set, the Splitter's entire output
(names and contents of all shard files, and even the error on a failing
run) is a function of the dataset's key-value association alone: two
datasets with the same entries in different insertion orders (distinct
keys, as in a real dict) produce identical results. -/
theorem C9_sorted_run_deterministic (kvs1 kvs2 : Obj) (n : Nat)
    (hnd : (kvs1.map Prod.fst).Nodup) (hperm : kvs1.Perm kvs2) :
    Splitter.main (Json.obj kvs1) n true = Splitter.main (Json.obj kvs2) n true := by
  have hids : Splitter.allIdsOf kvs1 true = Splitter.allIdsOf kvs2 true :=
    Splitter.allIdsOf_sorted_eq hperm
  have hdg : ∀ k, dget kvs1 k = dget kvs2 k := dget_congr_perm hnd hperm
  have hbt : ∀ ids, Splitter.buildTransformed kvs1 ids = Splitter.buildTransformed kvs2 ids :=
    Splitter.buildTransformed_congr hdg
  simp only [Splitter.main, hids, hbt]

/-- Witness for C9: the same two entries in both insertion orders, shard
count 2. -/
theorem C9_witness :
    (([("b", Json.arr []), ("a", Json.null)] : Obj).map Prod.fst).Nodup ∧
    ([("b", Json.arr []), ("a", Json.null)] : Obj).Perm
      [("a", Json.null), ("b", Json.arr [])] ∧
    Splitter.main (Json.obj [("b", Json.arr []), ("a", Json.null)]) 2 true =
      Splitter.main (Json.obj [("a", Json.null), ("b", Json.arr [])]) 2 true :=
  ⟨by decide, List.Perm.swap _ _ _,
   C9_sorted_run_deterministic _ _ 2 (by decide) (List.Perm.swap _ _ _)⟩

/-- A list-valued entry of the dataset appears in the Converter output
(on the side its key selects) with its converted record list. -/
theorem processEntries_mem_of_arr {kvs : Obj} {sel oth : List (String × List Obj)}
    {k : String} {items : List Json} {c : List Obj}
    (h : Converter.processEntries kvs = Except.ok (sel, oth))
    (hmem : (k, Json.arr items) ∈ kvs)
    (hc : Converter.convertList items = Except.ok c) :
    (k ∈ Converter.selected_ids → (k, c) ∈ sel) ∧
    (k ∉ Converter.selected_ids → (k, c) ∈ oth) := by
  induction kvs generalizing sel oth with
  | nil => cases hmem
  | cons p rest ih =>
    obtain ⟨k0, v0⟩ := p
    rcases List.mem_cons.mp hmem with heq | hmem'
    · injection heq with h1 h2
      subst h1
      subst h2
      simp only [Converter.processEntries] at h
      rw [hc] at h
      cases hr : Converter.processEntries rest with
      | error e => rw [hr] at h; simp at h
      | ok q =>
        obtain ⟨sel', oth'⟩ := q
        rw [hr] at h
        dsimp only at h
        by_cases hk : k ∈ Converter.selected_ids
        · rw [if_pos hk] at h
          injection h with h
          injection h with hs ho
          exact ⟨fun _ => hs ▸ List.mem_cons_self _ _, fun hnk => absurd hk hnk⟩
        · rw [if_neg hk] at h
          injection h with h
          injection h with hs ho
          exact ⟨fun hkk => absurd hkk hk, fun _ => ho ▸ List.mem_cons_self _ _⟩
    · cases v0 with
      | arr items0 =>
        simp only [Converter.processEntries] at h
        cases hc0 : Converter.convertList items0 with
        | error e => rw [hc0] at h; simp at h
        | ok c0 =>
          rw [hc0] at h
          cases hr : Converter.processEntries rest with
          | error e => rw [hr] at h; simp at h
          | ok q =>
            obtain ⟨sel', oth'⟩ := q
            rw [hr] at h
            dsimp only at h
            have hih := ih hr hmem'
            by_cases hk0 : k0 ∈ Converter.selected_ids
            · rw [if_pos hk0] at h
              injection h with h
              injection h with hs ho
              exact ⟨fun hkk => hs ▸ List.mem_cons_of_mem _ (hih.1 hkk),
                     fun hnk => ho ▸ hih.2 hnk⟩
            · rw [if_neg hk0] at h
              injection h with h
              injection h with hs ho
              exact ⟨fun hkk => hs ▸ hih.1 hkk,
                     fun hnk => ho ▸ List.mem_cons_of_mem _ (hih.2 hnk)⟩
      | null => exact ih h hmem'
      | bool bb => exact ih h hmem'
      | num nn => exact ih h hmem'
      | str ss => exact ih h hmem'
      | obj oo => exact ih h hmem'

/-- Every identifier appearing in some shard of the Splitter output is
one of the filtered ids. -/
theorem mem_shard_output {t0 : List (String × List Obj)} {fids : List String} {n w : Nat}
    {s : String × List (String × List Obj)} {k : String}
    (hs : s ∈ (Splitter.shard_ids fids n).enum.map (fun p =>
      ("split_" ++ Splitter.zpad (p.1 + 1) w ++ ".json",
       p.2.map (fun pid => (pid, Splitter.lookupD t0 pid)))))
    (hk : k ∈ s.2.map Prod.fst) : k ∈ fids := by
  obtain ⟨p, hp, rfl⟩ := List.mem_map.mp hs
  have hk' : k ∈ p.2 := by
    obtain ⟨e, he, hek⟩ := List.mem_map.mp hk
    obtain ⟨pid, hpid, rfl⟩ := List.mem_map.mp he
    exact hek ▸ hpid
  have hp1lt : p.1 < n := by
    have := List.fst_lt_of_mem_enum hp
    rwa [Splitter.shard_ids_length] at this
  have hgd : (Splitter.shard_ids fids n).getD p.1 [] = p.2 := by
    rw [List.getD_eq_getElem?_getD, List.mem_enum_iff_getElem?.mp hp]
    rfl
  obtain ⟨idx, hidx, hget, _⟩ :=
    (Splitter.mem_shard_ids hp1lt).mp (by rw [hgd]; exact hk')
  exact hget ▸ List.get_mem _ _ _

/-- C10: an identifier mapped to an empty list is retained by the
Converter — it appears in `selected` or in `others` (as its id range
dictates) mapped to the empty list — while the Splitter drops it from
every shard, since it has no surviving record. -/
theorem C10_empty_list_asymmetry (kvs : Obj) (k : String) (n : Nat) (b : Bool)
    (sel oth : List (String × List Obj))
    (shards : List (String × List (String × List Obj)))
    (hmem : (k, Json.arr []) ∈ kvs)
    (hnd : (kvs.map Prod.fst).Nodup)
    (hp : Converter.process (Json.obj kvs) = Except.ok (sel, oth))
    (hm : Splitter.main (Json.obj kvs) n b = Except.ok shards) :
    ((k ∈ Converter.selected_ids → (k, ([] : List Obj)) ∈ sel) ∧
     (k ∉ Converter.selected_ids → (k, ([] : List Obj)) ∈ oth)) ∧
    (∀ s ∈ shards, k ∉ s.2.map Prod.fst) := by
  refine ⟨processEntries_mem_of_arr hp hmem rfl, ?_⟩
  intro s hs hk
  obtain ⟨t0, hbt, hsh⟩ := Splitter.main_ok_inv hm
  subst hsh
  have hkf : k ∈ Splitter.filteredIdsOf t0 (Splitter.allIdsOf kvs b) :=
    mem_shard_output hs hk
  obtain ⟨_, l, hl⟩ := Splitter.mem_filteredIdsOf.mp hkf
  have hchar := (Splitter.buildTransformed_mem hbt).mp hl
  have hdg : dget kvs k = Json.arr [] := dget_eq_of_mem_nodup hnd hmem
  have htv : Splitter.transformValue (dget kvs k) = Except.ok ([] : List Obj) := by
    rw [hdg]
    rfl
  have h1 := hchar.2.1
  rw [htv] at h1
  injection h1 with h1
  exact hchar.2.2 h1.symm

/-- Witness for C10: id "10000" maps to an empty list; the Converter
keeps it in `selected` with an empty list, the Splitter emits it in no
shard. -/
theorem C10_witness :
    (("10000", Json.arr []) ∈
      ([("10000", Json.arr []), ("b", Json.arr [])] : Obj)) ∧
    ((([("10000", Json.arr []), ("b", Json.arr [])] : Obj).map Prod.fst).Nodup) ∧
    (Converter.process (Json.obj [("10000", Json.arr []), ("b", Json.arr [])]) =
      Except.ok ([("10000", [])], [("b", [])])) ∧
    (Splitter.main (Json.obj [("10000", Json.arr []), ("b", Json.arr [])]) 2 false =
      Except.ok [("split_01.json", []), ("split_02.json", [])]) ∧
    ((("10000" ∈ Converter.selected_ids →
        ("10000", ([] : List Obj)) ∈ [("10000", ([] : List Obj))]) ∧
      ("10000" ∉ Converter.selected_ids →
        ("10000", ([] : List Obj)) ∈ [("b", ([] : List Obj))])) ∧
     (∀ s ∈ [("split_01.json", ([] : List (String × List Obj))),
             ("split_02.json", ([] : List (String × List Obj)))],
        "10000" ∉ s.2.map Prod.fst)) :=
  ⟨List.mem_cons_self _ _, by decide, rfl, rfl,
   C10_empty_list_asymmetry [("10000", Json.arr []), ("b", Json.arr [])] "10000" 2 false _ _ _
     (List.mem_cons_self _ _) (by decide) rfl rfl⟩
